import Mathlib

/-!
Shallow embedding of the transaction-input satisfier of `src/script/sign.cpp`
(bitcoin-abc): `SignStep`, `ProduceSignature`, `SignatureData` with its merge
semantics, and the extraction algorithm `DataFromTransaction`.

External collaborators (the template matcher `Solver`, the script interpreter
`VerifyScript`/`EvalScript`, hash and signature primitives) are not part of the
repository under verification; they are abstracted as fields of an `Ext`
record over which all theorems quantify.  Byte vectors are lists of naturals;
`std::map` is modelled as an association list with insert-if-absent
(`emplace`) semantics, which is what the source relies on.
-/

namespace Sign

/-- Byte of a serialized value. -/
abbrev Byte := Nat

/-- `typedef std::vector<uint8_t> valtype`. -/
abbrev valtype := List Byte

/-- A script is a byte vector (`CScript`). -/
abbrev CScript := List Byte

/-- `CKeyID`: a uint160 key hash, kept as its byte sequence. -/
abbrev CKeyID := List Byte

/-- `SigPair = std::pair<CPubKey, std::vector<uint8_t>>`: (pubkey, signature). -/
abbrev SigPair := valtype × valtype

/-- First value bound to `k` in an association list (`std::map::find`). -/
def mapFind {α : Type} (m : List (CKeyID × α)) (k : CKeyID) : Option α :=
  match m with
  | [] => none
  | (k2, v) :: rest => if k2 = k then some v else mapFind rest k

/-- `std::map::emplace`: insert `(k, v)` only when `k` is absent. -/
def mapEmplace {α : Type} (m : List (CKeyID × α)) (k : CKeyID) (v : α) :
    List (CKeyID × α) :=
  if (mapFind m k).isSome then m else m ++ [(k, v)]

/-- `txnouttype` of the external Solver (script/standard.h). -/
inductive txnouttype where
  | TX_NONSTANDARD
  | TX_NULL_DATA
  | TX_PUBKEY
  | TX_PUBKEYHASH
  | TX_SCRIPTHASH
  | TX_MULTISIG
deriving DecidableEq, Repr

/-- `SignatureData` (script/sign.h): per-input signing progress. -/
structure SignatureData where
  complete : Bool := false
  scriptSig : CScript := []
  redeem_script : CScript := []
  signatures : List (CKeyID × SigPair) := []
  misc_pubkeys : List (CKeyID × (valtype × Nat)) := []
  missing_pubkeys : List CKeyID := []
  missing_sigs : List CKeyID := []
  missing_redeem_script : Option (List Byte) := none
deriving DecidableEq, Repr

/-- `SigningProvider`: key-material capability, lookups modelled as `Option`. -/
structure SigningProvider where
  getCScript : List Byte → Option CScript := fun _ => none
  getPubKey : CKeyID → Option valtype := fun _ => none
  getKeyOrigin : CKeyID → Option Nat := fun _ => none

/-- `BaseSignatureCreator`: produces raw signatures, carries its checker. -/
structure BaseSignatureCreator where
  createSig : CKeyID → CScript → Option valtype := fun _ _ => none
  checker : valtype → valtype → CScript → Bool := fun _ _ _ => false

/-- `CTxIn`: only the unlocking script matters here. -/
structure CTxIn where
  scriptSig : CScript := []
deriving DecidableEq, Repr

/-- `CMutableTransaction`: the inputs. -/
structure CMutableTransaction where
  vin : List CTxIn := []
deriving DecidableEq, Repr

/-- `CTxOut`: amount and locking script of the output being spent. -/
structure CTxOut where
  nValue : Int := 0
  scriptPubKey : CScript := []
deriving DecidableEq, Repr

/-- External collaborators, out of scope of this repository: the template
Solver, the interpreter (`VerifyScript` also reporting the successful
`CheckSig` calls it performed, which the extraction checker records),
push-only evaluation, and the hash primitives deriving ids. -/
structure Ext where
  solver : CScript → txnouttype × List valtype
  pubkeyID : valtype → CKeyID
  scriptID : CScript → List Byte
  verifyTrace : CScript → CScript → (valtype → valtype → CScript → Bool) →
    Bool × List (valtype × valtype)
  isPushOnly : CScript → Bool := fun _ => false
  evalPushOnly : CScript → List valtype := fun _ => []
  makeChecker : CMutableTransaction → Nat → Int →
    (valtype → valtype → CScript → Bool) := fun _ _ _ _ _ _ => false

/-- `VerifyScript(scriptSig, scriptPubKey, STANDARD_SCRIPT_VERIFY_FLAGS,
checker)`: the verdict of the external interpreter. -/
def Ext.verify (ext : Ext) (scriptSig scriptPubKey : CScript)
    (checker : valtype → valtype → CScript → Bool) : Bool :=
  (ext.verifyTrace scriptSig scriptPubKey checker).1

/-- `GetCScript`: provider first, then a matching `sigdata.redeem_script`. -/
def GetCScript (ext : Ext) (provider : SigningProvider)
    (sigdata : SignatureData) (scriptid : List Byte) : Option CScript :=
  match provider.getCScript scriptid with
  | some script => some script
  | none =>
    if ext.scriptID sigdata.redeem_script = scriptid then
      some sigdata.redeem_script
    else
      none

/-- `GetPubKey`: recorded signatures, then cached misc pubkeys, then the
provider (caching origin metadata on a provider hit). -/
def GetPubKey (provider : SigningProvider) (sigdata : SignatureData)
    (address : CKeyID) : Option valtype × SignatureData :=
  match mapFind sigdata.signatures address with
  | some pr => (some pr.1, sigdata)
  | none =>
    match mapFind sigdata.misc_pubkeys address with
    | some pr => (some pr.1, sigdata)
    | none =>
      match provider.getPubKey address with
      | some pubkey =>
        match provider.getKeyOrigin address with
        | some info =>
          (some pubkey,
            { sigdata with
              misc_pubkeys :=
                mapEmplace sigdata.misc_pubkeys address (pubkey, info) })
        | none => (some pubkey, sigdata)
      | none => (none, sigdata)

/-- Static `CreateSig`: reuse a recorded signature, else cache origin, invoke
the creator, and record the outcome (signature or missing KeyId). -/
def CreateSig (ext : Ext) (creator : BaseSignatureCreator)
    (sigdata : SignatureData) (provider : SigningProvider) (pubkey : valtype)
    (scriptcode : CScript) : Option valtype × SignatureData :=
  let keyid := ext.pubkeyID pubkey
  match mapFind sigdata.signatures keyid with
  | some pr => (some pr.2, sigdata)
  | none =>
    let sd1 :=
      match provider.getKeyOrigin keyid with
      | some info =>
        { sigdata with
          misc_pubkeys := mapEmplace sigdata.misc_pubkeys keyid (pubkey, info) }
      | none => sigdata
    match creator.createSig keyid scriptcode with
    | some sig =>
      (some sig,
        { sd1 with signatures := mapEmplace sd1.signatures keyid (pubkey, sig) })
    | none =>
      (none, { sd1 with missing_sigs := sd1.missing_sigs ++ [keyid] })

/-- The signature-collection loop of the `TX_MULTISIG` case of `SignStep`:
`if (ret.size() < required + 1 && CreateSig(...)) ret.push_back(sig)`,
with the short-circuit of `&&` (no `CreateSig` side effects once full). -/
def msigStep (ext : Ext) (creator : BaseSignatureCreator)
    (provider : SigningProvider) (scriptcode : CScript) (required : Nat) :
    List valtype → List valtype → SignatureData →
    List valtype × SignatureData
  | [], ret, sd => (ret, sd)
  | pubkey :: rest, ret, sd =>
    if ret.length < required + 1 then
      match CreateSig ext creator sd provider pubkey scriptcode with
      | (some sig, sd1) =>
        msigStep ext creator provider scriptcode required rest (ret ++ [sig]) sd1
      | (none, sd1) =>
        msigStep ext creator provider scriptcode required rest ret sd1
    else
      msigStep ext creator provider scriptcode required rest ret sd

/-- Body of the padding loop of the `TX_MULTISIG` case, with an explicit
fuel bound (the fuel never runs out before the loop condition turns false,
since each iteration shrinks `required + 1 - (i + ret.length)` by two). -/
def padGo (required : Nat) : Nat → Nat → List valtype → List valtype
  | 0, _, ret => ret
  | g + 1, i, ret =>
    if i + ret.length < required + 1 then
      padGo required g (i + 1) (ret ++ [[]])
    else
      ret

/-- The padding loop of the `TX_MULTISIG` case:
`for (size_t i = 0; i + ret.size() < required + 1; ++i) ret.push_back({})`.
Note that each iteration increases both `i` and `ret.size()`. -/
def padLoop (required : Nat) (i : Nat) (ret : List valtype) : List valtype :=
  padGo required (required + 1 - (i + ret.length)) i ret

/-- `SignStep`: resolve one template level.  Returns the success flag, the
items to push, the resolved kind, and the updated `SignatureData`. -/
def SignStep (ext : Ext) (provider : SigningProvider)
    (creator : BaseSignatureCreator) (scriptPubKey : CScript)
    (sigdata : SignatureData) :
    Bool × List valtype × txnouttype × SignatureData :=
  let sol := ext.solver scriptPubKey
  let whichType := sol.1
  let vSolutions := sol.2
  match whichType with
  | .TX_NONSTANDARD => (false, [], whichType, sigdata)
  | .TX_NULL_DATA => (false, [], whichType, sigdata)
  | .TX_PUBKEY =>
    match CreateSig ext creator sigdata provider (vSolutions.headD []) scriptPubKey with
    | (some sig, sd1) => (true, [sig], whichType, sd1)
    | (none, sd1) => (false, [], whichType, sd1)
  | .TX_PUBKEYHASH =>
    let keyID := vSolutions.headD []
    match GetPubKey provider sigdata keyID with
    | (none, sd1) =>
      (false, [], whichType,
        { sd1 with missing_pubkeys := sd1.missing_pubkeys ++ [keyID] })
    | (some pubkey, sd1) =>
      match CreateSig ext creator sd1 provider pubkey scriptPubKey with
      | (some sig, sd2) => (true, [sig, pubkey], whichType, sd2)
      | (none, sd2) => (false, [], whichType, sd2)
  | .TX_SCRIPTHASH =>
    let h160 := vSolutions.headD []
    match GetCScript ext provider sigdata h160 with
    | some scriptRet => (true, [scriptRet], whichType, sigdata)
    | none =>
      (false, [], whichType,
        { sigdata with missing_redeem_script := some h160 })
  | .TX_MULTISIG =>
    let required := (vSolutions.headD []).headD 0
    let pubkeys := (vSolutions.drop 1).dropLast
    let lp := msigStep ext creator provider scriptPubKey required pubkeys [[]] sigdata
    ((lp.1.length == required + 1), padLoop required 0 lp.1, whichType, lp.2)

/-- One push of `CScript::operator<<` on a data vector (length-prefixed,
with PUSHDATA1/2/4 where needed). -/
def pushData (v : valtype) : CScript :=
  if v.length < 76 then
    v.length :: v
  else if v.length ≤ 255 then
    76 :: v.length :: v
  else if v.length ≤ 65535 then
    77 :: (v.length % 256) :: (v.length / 256) :: v
  else
    78 :: (v.length % 256) :: (v.length / 256 % 256) ::
      (v.length / 65536 % 256) :: (v.length / 16777216 % 256) :: v

/-- `PushAll`: serialize the collected items (empty item becomes `OP_0`,
a single byte 1..16 becomes the canonical small-number opcode `OP_N`). -/
def PushAll (values : List valtype) : CScript :=
  values.foldl
    (fun result v =>
      if v.length = 0 then
        result ++ [0]
      else if v.length = 1 ∧ 1 ≤ v.headD 0 ∧ v.headD 0 ≤ 16 then
        result ++ [80 + v.headD 0]
      else
        result ++ pushData v)
    []

/-- The resolution part of `ProduceSignature`: the outer `SignStep`, the one
extra `Pay2ScriptHash` level (persisting `redeem_script`, rejecting nested
script-hash, appending the serialized redeem script), before serialization. -/
def ProduceItems (ext : Ext) (provider : SigningProvider)
    (creator : BaseSignatureCreator) (fromPubKey : CScript)
    (sigdata : SignatureData) : Bool × List valtype × SignatureData :=
  let step := SignStep ext provider creator fromPubKey sigdata
  let solved := step.1
  let result := step.2.1
  let whichType := step.2.2.1
  let sd := step.2.2.2
  if solved = true ∧ whichType = txnouttype.TX_SCRIPTHASH then
    let subscript := result.headD []
    let sdr := { sd with redeem_script := subscript }
    let step2 := SignStep ext provider creator subscript sdr
    (solved && step2.1 &&
       (if step2.2.2.1 = txnouttype.TX_SCRIPTHASH then false else true),
     step2.2.1 ++ [subscript], step2.2.2.2)
  else
    (solved, result, sd)

/-- `ProduceSignature`: no-op on a complete input; otherwise resolve, store
the `PushAll` serialization as `scriptSig`, and set `complete` to
(resolved fully) AND (interpreter verdict with the creator's checker). -/
def ProduceSignature (ext : Ext) (provider : SigningProvider)
    (creator : BaseSignatureCreator) (fromPubKey : CScript)
    (sigdata : SignatureData) : Bool × SignatureData :=
  if sigdata.complete then
    (true, sigdata)
  else
    let pr := ProduceItems ext provider creator fromPubKey sigdata
    let ss := PushAll pr.2.1
    let c := pr.1 && ext.verify ss fromPubKey creator.checker
    (c, { pr.2.2 with scriptSig := ss, complete := c })

/-- `SignatureExtractorChecker` recording of the successful `CheckSig`
calls performed inside `VerifyScript`: each recorded pair is
`(scriptSig, vchPubKey)` and is placed at `pubkey.GetID()`. -/
def recordSigs (ext : Ext) (sigs : List (CKeyID × SigPair))
    (trace : List (valtype × valtype)) : List (CKeyID × SigPair) :=
  trace.foldl (fun m pr => mapEmplace m (ext.pubkeyID pr.2) (pr.2, pr.1)) sigs

/-- Inner loop of the multisig matcher of `DataFromTransaction`: scan the
pubkeys from the cursor, matching `sig` against the first pubkey that either
already has a recorded signature or passes the (recording) checker; return
the advanced cursor and the updated signatures on a match. -/
def msigFindMatch (ext : Ext) (checkFn : valtype → valtype → CScript → Bool)
    (nextScript : CScript) (sigs : List (CKeyID × SigPair)) (sig : valtype) :
    List valtype → Nat → Option (Nat × List (CKeyID × SigPair))
  | [], _ => none
  | pubkey :: rest, i =>
    if (mapFind sigs (ext.pubkeyID pubkey)).isSome then
      some (i + 1, sigs)
    else if checkFn sig pubkey nextScript then
      some (i + 1, mapEmplace sigs (ext.pubkeyID pubkey) (pubkey, sig))
    else
      msigFindMatch ext checkFn nextScript sigs sig rest (i + 1)

/-- Outer loop of the multisig matcher: walk the recovered stack items,
keeping the cursor where it is when no pubkey at or after it matches. -/
def msigMatchLoop (ext : Ext) (checkFn : valtype → valtype → CScript → Bool)
    (nextScript : CScript) (pubkeys : List valtype) :
    List valtype → Nat → List (CKeyID × SigPair) →
    Nat × List (CKeyID × SigPair)
  | [], cursor, sigs => (cursor, sigs)
  | sig :: rest, cursor, sigs =>
    match msigFindMatch ext checkFn nextScript sigs sig (pubkeys.drop cursor) cursor with
    | some pr => msigMatchLoop ext checkFn nextScript pubkeys rest pr.1 pr.2
    | none => msigMatchLoop ext checkFn nextScript pubkeys rest cursor sigs

/-- The `TX_MULTISIG` block of `DataFromTransaction`, applied to whatever
`script_type`/`solutions`/`next_script`/stack survive the script-hash
redirection (`num_pubkeys = solutions.size() - 2`). -/
def msigPhase (ext : Ext) (checkFn : valtype → valtype → CScript → Bool)
    (scriptType : txnouttype) (solutions : List valtype)
    (nextScript : CScript) (stack : List valtype) (d : SignatureData) :
    SignatureData :=
  if scriptType = txnouttype.TX_MULTISIG ∧ stack ≠ [] then
    let numPk := solutions.length - 2
    let pubkeys := (solutions.drop 1).take numPk
    { d with
      signatures := (msigMatchLoop ext checkFn nextScript pubkeys stack 0 d.signatures).2 }
  else
    d

/-- `DataFromTransaction`: recover signing progress from an existing input.
Replays a push-only `scriptSig`, attempts full verification with a recording
checker (successful checks are kept even when the verdict is failure),
on success marks complete; otherwise redirects through one `Pay2ScriptHash`
level and runs the multisig cursor matcher. -/
def DataFromTransaction (ext : Ext) (tx : CMutableTransaction) (nIn : Nat)
    (txout : CTxOut) : SignatureData :=
  let d0 : SignatureData := {}
  let d1 := { d0 with scriptSig := (tx.vin.getD nIn {}).scriptSig }
  let stack :=
    if ext.isPushOnly d1.scriptSig then ext.evalPushOnly d1.scriptSig else []
  let checkFn := ext.makeChecker tx nIn txout.nValue
  let vr := ext.verifyTrace d1.scriptSig txout.scriptPubKey checkFn
  let d2 := { d1 with signatures := recordSigs ext d1.signatures vr.2 }
  if vr.1 then
    { d2 with complete := true }
  else
    let sol := ext.solver txout.scriptPubKey
    if sol.1 = txnouttype.TX_SCRIPTHASH ∧ stack ≠ [] ∧
        stack.getLastD [] ≠ ([] : valtype) then
      let redeem := stack.getLastD []
      let sol2 := ext.solver redeem
      msigPhase ext checkFn sol2.1 sol2.2 redeem stack.dropLast
        { d2 with redeem_script := redeem }
    else
      msigPhase ext checkFn sol.1 sol.2 txout.scriptPubKey stack d2

/-- `SignatureData::MergeSignatureData`. -/
def MergeSignatureData (a : SignatureData) (b : SignatureData) : SignatureData :=
  if a.complete then
    a
  else if b.complete then
    b
  else
    let a1 :=
      if a.redeem_script = [] ∧ b.redeem_script ≠ [] then
        { a with redeem_script := b.redeem_script }
      else
        a
    { a1 with
      signatures :=
        b.signatures.foldl (fun m kv => mapEmplace m kv.1 kv.2) a1.signatures }

/-- States reachable from the empty `SignatureData` by any sequence of
`ProduceSignature` and `MergeSignatureData` calls (arbitrary externals,
providers, creators and scripts at every step). -/
inductive Reachable : SignatureData → Prop where
  | empty : Reachable {}
  | produce : ∀ ext prov cre fp s, Reachable s →
      Reachable (ProduceSignature ext prov cre fp s).2
  | merge : ∀ s b, Reachable s → Reachable b →
      Reachable (MergeSignatureData s b)

/-- `OrderedMatches getID pubkeys c nw`: the entries `nw` are signatures
matched to pubkeys at strictly increasing indices of `pubkeys`, all at or
after the cursor `c`, each advancing the cursor past the matched pubkey. -/
inductive OrderedMatches (getID : valtype → CKeyID) (pubkeys : List valtype) :
    Nat → List (CKeyID × SigPair) → Prop where
  | nil : ∀ c, OrderedMatches getID pubkeys c []
  | cons : ∀ c j sig rest, c ≤ j → j < pubkeys.length →
      OrderedMatches getID pubkeys (j + 1) rest →
      OrderedMatches getID pubkeys c
        ((getID (pubkeys.getD j []), (pubkeys.getD j [], sig)) :: rest)

/-! Concrete instances used by counterexamples and witnesses. -/

/-- Provider answering nothing (`DUMMY_SIGNING_PROVIDER`). -/
def provNone : SigningProvider := {}

/-- Creator that can never sign. -/
def creFail : BaseSignatureCreator := {}

/-- Creator producing the signature `[7]` for every key. -/
def creOk : BaseSignatureCreator := { createSig := fun _ _ => some [7] }

/-- Externals where script `[1]` is a 2-of-3 multisig over pubkeys
`[10]`, `[11]`, `[12]`, and the interpreter rejects everything. -/
def extMS : Ext :=
  { solver := fun s =>
      if s = [1] then (txnouttype.TX_MULTISIG, [[2], [10], [11], [12], [3]])
      else (txnouttype.TX_NONSTANDARD, []),
    pubkeyID := fun pk => pk,
    scriptID := fun _ => [99],
    verifyTrace := fun _ _ _ => (false, []) }

/-- Externals where script `[9]` pays to pubkey `[5]`. -/
def extPK : Ext :=
  { solver := fun s =>
      if s = [9] then (txnouttype.TX_PUBKEY, [[5]])
      else (txnouttype.TX_NONSTANDARD, []),
    pubkeyID := fun pk => pk,
    scriptID := fun _ => [99],
    verifyTrace := fun _ _ _ => (false, []) }

/-- Externals where script `[4]` pays to the key hash `[6]`. -/
def extPKH : Ext :=
  { solver := fun s =>
      if s = [4] then (txnouttype.TX_PUBKEYHASH, [[6]])
      else (txnouttype.TX_NONSTANDARD, []),
    pubkeyID := fun pk => pk,
    scriptID := fun _ => [99],
    verifyTrace := fun _ _ _ => (false, []) }

/-- Externals where script `[2]` is pay-to-script-hash of hash `[99]` and
script `[3]` is itself pay-to-script-hash of hash `[98]`. -/
def extSH : Ext :=
  { solver := fun s =>
      if s = [2] then (txnouttype.TX_SCRIPTHASH, [[99]])
      else if s = [3] then (txnouttype.TX_SCRIPTHASH, [[98]])
      else (txnouttype.TX_NONSTANDARD, []),
    pubkeyID := fun pk => pk,
    scriptID := fun _ => [97],
    verifyTrace := fun _ _ _ => (false, []) }

/-- Provider holding the redeem script `[3]` under hash `[99]`. -/
def provSH : SigningProvider :=
  { getCScript := fun h => if h = [99] then some [3] else none }

/-- Incomplete signing state holding signature `[3]` for key `[1]`. -/
def sdA : SignatureData := { signatures := [([1], ([2], [3]))] }

/-- Incomplete signing state holding a different signature `[4]` for the
same key `[1]`. -/
def sdB : SignatureData := { signatures := [([1], ([2], [4]))] }

/-- A one-input transaction with a stored unlocking script. -/
def txOne : CMutableTransaction := { vin := [{ scriptSig := [0] }] }

/-- Consistency of a state with a fixed creator and script code: every
KeyId recorded missing is one the creator cannot sign, and every KeyId in
the signature map is one the creator signs. -/
def SigInv (cre : BaseSignatureCreator) (sc : CScript)
    (sd : SignatureData) : Prop :=
  (∀ k, k ∈ sd.missing_sigs → cre.createSig k sc = none) ∧
  (∀ k, (mapFind sd.signatures k).isSome = true → cre.createSig k sc ≠ none)

/-! Helper lemmas. -/

/-- With enough fuel, the padding body fills exactly half of the shortfall
(rounded up), because each iteration advances `i` together with the list. -/
theorem padGo_length (required : Nat) :
    ∀ g i ret, required + 1 - (i + ret.length) ≤ g →
      (padGo required g i ret).length =
        ret.length + (required + 1 - (i + ret.length) + 1) / 2 := by
  intro g
  induction g with
  | zero => intro i ret hg; rw [padGo]; omega
  | succ g ih =>
    intro i ret hg
    rw [padGo]
    by_cases hlt : i + ret.length < required + 1
    · rw [if_pos hlt]
      have h2 := ih (i + 1) (ret ++ [[]])
      simp only [List.length_append, List.length_cons, List.length_nil] at h2
      rw [h2 (by omega)]
      omega
    · rw [if_neg hlt]
      omega

/-- Length of the result of the padding loop: each iteration adds one item
but also advances `i`, so only half of the missing count is filled. -/
theorem padLoop_length (required : Nat) :
    ∀ i ret, (padLoop required i ret).length =
      ret.length + (required + 1 - (i + ret.length) + 1) / 2 := by
  intro i ret
  exact padGo_length required _ i ret (Nat.le_refl _)

/-- The multisig collection loop only appends items and never grows the
item list beyond `required + 1`. -/
theorem msigStep_length_bounds (ext : Ext) (cre : BaseSignatureCreator)
    (prov : SigningProvider) (sc : CScript) (required : Nat) :
    ∀ pks ret sd,
      ret.length ≤ (msigStep ext cre prov sc required pks ret sd).1.length ∧
      (ret.length ≤ required + 1 →
        (msigStep ext cre prov sc required pks ret sd).1.length ≤ required + 1) := by
  intro pks
  induction pks with
  | nil => intro ret sd; exact ⟨Nat.le_refl _, fun h => h⟩
  | cons pk rest ih =>
    intro ret sd
    rw [msigStep]
    by_cases hlt : ret.length < required + 1
    · rw [if_pos hlt]
      cases hcs : CreateSig ext cre sd prov pk sc with
      | mk osig sd1 =>
        cases osig with
        | some sig =>
          have h2 := ih (ret ++ [sig]) sd1
          simp only [List.length_append, List.length_cons, List.length_nil] at h2
          exact ⟨Nat.le_trans (by omega) h2.1, fun _ => h2.2 (by omega)⟩
        | none => exact ih ret sd1
    · rw [if_neg hlt]
      exact ih ret sd

/-! Claim C1. -/

/-- C1 (counterexample): for the 2-of-3 multisig script `[1]` with a
creator that can sign nothing, `SignStep` fails but the produced item list
has 2 items, not `required_count + 1 = 3` — the padding loop advances `i`
together with the list length, so it fills only half of the shortfall. -/
theorem c1_counterexample :
    (SignStep extMS provNone creFail [1] ({} : SignatureData)).1 = false ∧
    (SignStep extMS provNone creFail [1] ({} : SignatureData)).2.1.length ≠
      (((extMS.solver [1]).2.headD []).headD 0) + 1 := by
  decide

/-- C1 (amended): for a `required_count`-of-`n` multisig, `SignStep` pushes
a leading empty placeholder and collects signatures in pubkey order up to
`required_count`; it succeeds iff exactly `required_count` signatures were
obtained.  On a shortfall it pads with only `⌈(required_count + 1 - s) / 2⌉`
empty items, where `s` is the pre-padding item count, so the total item
count is `required_count + 1` only when at most one signature is missing. -/
theorem c1_multisig_items (ext : Ext) (prov : SigningProvider)
    (cre : BaseSignatureCreator) (script : CScript) (sigdata : SignatureData)
    (sols : List valtype) (r s : Nat)
    (hs : ext.solver script = (txnouttype.TX_MULTISIG, sols))
    (hr : r = (sols.headD []).headD 0)
    (hlen : s = (msigStep ext cre prov script r ((sols.drop 1).dropLast)
      [[]] sigdata).1.length) :
    ((SignStep ext prov cre script sigdata).1 = true ↔ s = r + 1) ∧
    (SignStep ext prov cre script sigdata).2.1.length = s + (r + 1 - s + 1) / 2 ∧
    1 ≤ s ∧ s ≤ r + 1 := by
  have hb := msigStep_length_bounds ext cre prov script r
    ((sols.drop 1).dropLast) [[]] sigdata
  simp only [List.length_cons, List.length_nil] at hb
  rw [SignStep, hs]
  simp only [← hr, ← hlen] at hb ⊢
  refine ⟨?_, ?_, ?_, ?_⟩
  · subst hr hlen; simp [beq_iff_eq]
  · subst hr hlen; rw [padLoop_length]; omega
  · omega
  · exact hb.2 (by omega)

/-- C1 (witness): the amended statement at the 2-of-3 multisig script `[1]`
with a creator signing every key: 2 signatures are obtained, `SignStep`
succeeds, and the item list has exactly 3 items. -/
theorem c1_multisig_items_witness :
    (extMS.solver [1] = (txnouttype.TX_MULTISIG, [[2], [10], [11], [12], [3]])) ∧
    (((SignStep extMS provNone creOk [1] ({} : SignatureData)).1 = true ↔
        (3 : Nat) = 2 + 1) ∧
      (SignStep extMS provNone creOk [1] ({} : SignatureData)).2.1.length =
        3 + (2 + 1 - 3 + 1) / 2 ∧
      1 ≤ 3 ∧ (3 : Nat) ≤ 2 + 1) :=
  ⟨by decide,
   c1_multisig_items extMS provNone creOk [1] {} [[2], [10], [11], [12], [3]]
     2 3 (by decide) (by decide) (by decide)⟩

/-! Claim C2. -/

/-- C2: on an incomplete input, `ProduceSignature` returns exactly the
`complete` flag it stores, and that flag is (resolution fully succeeded)
AND (the external interpreter accepts the freshly produced unlocking script
against the locking script with the creator's checker); the stored
unlocking script is the `PushAll` serialization of the collected items. -/
theorem c2_complete_is_verified (ext : Ext) (prov : SigningProvider)
    (cre : BaseSignatureCreator) (fromPubKey : CScript) (s : SignatureData)
    (h : s.complete = false) :
    (ProduceSignature ext prov cre fromPubKey s).1 =
      (ProduceSignature ext prov cre fromPubKey s).2.complete ∧
    (ProduceSignature ext prov cre fromPubKey s).2.complete =
      ((ProduceItems ext prov cre fromPubKey s).1 &&
        ext.verify (ProduceSignature ext prov cre fromPubKey s).2.scriptSig
          fromPubKey cre.checker) ∧
    (ProduceSignature ext prov cre fromPubKey s).2.scriptSig =
      PushAll (ProduceItems ext prov cre fromPubKey s).2.1 := by
  simp [ProduceSignature, h]

/-- C2 (witness): the statement at the pay-to-pubkey script `[9]` with a
creator that signs and an interpreter that rejects. -/
theorem c2_complete_is_verified_witness :
    ({} : SignatureData).complete = false ∧
    ((ProduceSignature extPK provNone creOk [9] {}).1 =
        (ProduceSignature extPK provNone creOk [9] {}).2.complete ∧
      (ProduceSignature extPK provNone creOk [9] {}).2.complete =
        ((ProduceItems extPK provNone creOk [9] {}).1 &&
          extPK.verify (ProduceSignature extPK provNone creOk [9] {}).2.scriptSig
            [9] creOk.checker) ∧
      (ProduceSignature extPK provNone creOk [9] {}).2.scriptSig =
        PushAll (ProduceItems extPK provNone creOk [9] {}).2.1) :=
  ⟨rfl, c2_complete_is_verified extPK provNone creOk [9] {} rfl⟩

/-! Claim C5. -/

/-- C5: a complete `SignatureData` is immutable: `ProduceSignature` returns
true and leaves it unchanged, and merging anything into it is a no-op. -/
theorem c5_complete_immutable (ext : Ext) (prov : SigningProvider)
    (cre : BaseSignatureCreator) (fromPubKey : CScript) (s b : SignatureData)
    (h : s.complete = true) :
    ProduceSignature ext prov cre fromPubKey s = (true, s) ∧
    MergeSignatureData s b = s := by
  constructor
  · simp [ProduceSignature, h]
  · simp [MergeSignatureData, h]

/-- C5 (witness): the statement at a concrete complete state. -/
theorem c5_complete_immutable_witness :
    ({ complete := true, scriptSig := [0] } : SignatureData).complete = true ∧
    (ProduceSignature extPK provNone creFail [9]
        { complete := true, scriptSig := [0] } =
      (true, { complete := true, scriptSig := [0] }) ∧
      MergeSignatureData { complete := true, scriptSig := [0] } sdB =
        { complete := true, scriptSig := [0] }) :=
  ⟨rfl, c5_complete_immutable extPK provNone creFail [9] _ sdB rfl⟩

/-! Map lemmas. -/

/-- Lookup in an appended association list: first list wins. -/
theorem mapFind_append {α : Type} (m1 m2 : List (CKeyID × α)) (k : CKeyID) :
    mapFind (m1 ++ m2) k =
      (match mapFind m1 k with
       | some v => some v
       | none => mapFind m2 k) := by
  induction m1 with
  | nil => rfl
  | cons kv rest ih =>
    cases kv with
    | mk k1 v1 =>
      by_cases hk : k1 = k
      · simp [mapFind, hk]
      · simp [mapFind, hk, ih]

/-- Lookup after folding `emplace` over a list: an existing binding is kept;
otherwise the first binding of the folded list for that key is taken. -/
theorem mapFind_foldl_emplace {α : Type} (l : List (CKeyID × α)) :
    ∀ (m : List (CKeyID × α)) (k : CKeyID),
      mapFind (l.foldl (fun acc kv => mapEmplace acc kv.1 kv.2) m) k =
        (match mapFind m k with
         | some v => some v
         | none => mapFind l k) := by
  induction l with
  | nil =>
    intro m k
    simp only [List.foldl_nil]
    cases mapFind m k <;> rfl
  | cons kv rest ih =>
    intro m k
    cases kv with
    | mk k1 v1 =>
      rw [List.foldl_cons, ih]
      unfold mapEmplace
      by_cases hpres : (mapFind m k1).isSome
      · rw [if_pos hpres]
        cases hmk : mapFind m k with
        | some w => rfl
        | none =>
          by_cases hk : k1 = k
          · subst hk; rw [hmk] at hpres; simp at hpres
          · simp [mapFind, hk]
      · rw [if_neg hpres, mapFind_append]
        cases hmk : mapFind m k with
        | some w => rfl
        | none =>
          by_cases hk : k1 = k
          · subst hk; simp [mapFind]
          · simp [mapFind, hk]

/-! Frame lemmas: which fields each operation can touch. -/

/-- `GetPubKey` can only add to `misc_pubkeys`; every other field of the
state is returned unchanged. -/
theorem getPubKey_frame (prov : SigningProvider) (sd : SignatureData)
    (a : CKeyID) :
    (GetPubKey prov sd a).2.complete = sd.complete ∧
    (GetPubKey prov sd a).2.scriptSig = sd.scriptSig ∧
    (GetPubKey prov sd a).2.redeem_script = sd.redeem_script ∧
    (GetPubKey prov sd a).2.signatures = sd.signatures ∧
    (GetPubKey prov sd a).2.missing_pubkeys = sd.missing_pubkeys ∧
    (GetPubKey prov sd a).2.missing_sigs = sd.missing_sigs ∧
    (GetPubKey prov sd a).2.missing_redeem_script = sd.missing_redeem_script := by
  rcases h1 : mapFind sd.signatures a with _ | pr <;>
    rcases h2 : mapFind sd.misc_pubkeys a with _ | pr2 <;>
      rcases h3 : prov.getPubKey a with _ | pk <;>
        rcases h4 : prov.getKeyOrigin a with _ | info <;>
          simp [GetPubKey, h1, h2, h3, h4]

/-- `CreateSig` can only touch `signatures`, `misc_pubkeys` and
`missing_sigs`; the script fields, `complete` and the pubkey-miss lists are
returned unchanged. -/
theorem createSig_frame (ext : Ext) (cre : BaseSignatureCreator)
    (sd : SignatureData) (prov : SigningProvider) (pk : valtype)
    (sc : CScript) :
    (CreateSig ext cre sd prov pk sc).2.complete = sd.complete ∧
    (CreateSig ext cre sd prov pk sc).2.scriptSig = sd.scriptSig ∧
    (CreateSig ext cre sd prov pk sc).2.redeem_script = sd.redeem_script ∧
    (CreateSig ext cre sd prov pk sc).2.missing_pubkeys = sd.missing_pubkeys ∧
    (CreateSig ext cre sd prov pk sc).2.missing_redeem_script =
      sd.missing_redeem_script := by
  rcases h1 : mapFind sd.signatures (ext.pubkeyID pk) with _ | pr <;>
    rcases h2 : prov.getKeyOrigin (ext.pubkeyID pk) with _ | info <;>
      rcases h3 : cre.createSig (ext.pubkeyID pk) sc with _ | sig <;>
        simp [CreateSig, h1, h2, h3]

/-- The multisig collection loop can only touch `signatures`,
`misc_pubkeys` and `missing_sigs` of the state. -/
theorem msigStep_frame (ext : Ext) (cre : BaseSignatureCreator)
    (prov : SigningProvider) (sc : CScript) (r : Nat) :
    ∀ (pks ret : List valtype) (sd : SignatureData),
      (msigStep ext cre prov sc r pks ret sd).2.complete = sd.complete ∧
      (msigStep ext cre prov sc r pks ret sd).2.scriptSig = sd.scriptSig ∧
      (msigStep ext cre prov sc r pks ret sd).2.redeem_script =
        sd.redeem_script ∧
      (msigStep ext cre prov sc r pks ret sd).2.missing_pubkeys =
        sd.missing_pubkeys ∧
      (msigStep ext cre prov sc r pks ret sd).2.missing_redeem_script =
        sd.missing_redeem_script := by
  intro pks
  induction pks with
  | nil => intro ret sd; exact ⟨rfl, rfl, rfl, rfl, rfl⟩
  | cons pk rest ih =>
    intro ret sd
    rw [msigStep]
    by_cases hlt : ret.length < r + 1
    · rw [if_pos hlt]
      rcases hcs : CreateSig ext cre sd prov pk sc with ⟨os, sd1⟩
      have hfr := createSig_frame ext cre sd prov pk sc
      rw [hcs] at hfr
      cases os with
      | none =>
        have h2 := ih ret sd1
        exact ⟨h2.1.trans hfr.1, h2.2.1.trans hfr.2.1, h2.2.2.1.trans hfr.2.2.1,
          h2.2.2.2.1.trans hfr.2.2.2.1, h2.2.2.2.2.trans hfr.2.2.2.2⟩
      | some sig =>
        have h2 := ih (ret ++ [sig]) sd1
        exact ⟨h2.1.trans hfr.1, h2.2.1.trans hfr.2.1, h2.2.2.1.trans hfr.2.2.1,
          h2.2.2.2.1.trans hfr.2.2.2.1, h2.2.2.2.2.trans hfr.2.2.2.2⟩
    · rw [if_neg hlt]
      exact ih ret sd

/-- The template kind returned by `SignStep` is always the Solver's
classification of the script it was given. -/
theorem signStep_whichType (ext : Ext) (prov : SigningProvider)
    (cre : BaseSignatureCreator) (sc : CScript) (sd : SignatureData) :
    (SignStep ext prov cre sc sd).2.2.1 = (ext.solver sc).1 := by
  rcases hs : ext.solver sc with ⟨wt, sols⟩
  cases wt with
  | TX_NONSTANDARD => simp only [SignStep, hs]
  | TX_NULL_DATA => simp only [SignStep, hs]
  | TX_PUBKEY =>
    rcases hc : CreateSig ext cre sd prov (sols.headD []) sc with ⟨os, sd1⟩
    cases os <;> simp only [SignStep, hs, hc]
  | TX_PUBKEYHASH =>
    rcases hg : GetPubKey prov sd (sols.headD []) with ⟨op, sd1⟩
    cases op with
    | none => simp only [SignStep, hs, hg]
    | some pk =>
      rcases hc : CreateSig ext cre sd1 prov pk sc with ⟨os, sd2⟩
      cases os <;> simp only [SignStep, hs, hg, hc]
  | TX_SCRIPTHASH =>
    cases hg : GetCScript ext prov sd (sols.headD []) <;>
      simp only [SignStep, hs, hg]
  | TX_MULTISIG => simp only [SignStep, hs]

/-- `SignStep` never touches `complete`, `scriptSig` or `redeem_script`. -/
theorem signStep_frame (ext : Ext) (prov : SigningProvider)
    (cre : BaseSignatureCreator) (sc : CScript) (sd : SignatureData) :
    (SignStep ext prov cre sc sd).2.2.2.complete = sd.complete ∧
    (SignStep ext prov cre sc sd).2.2.2.scriptSig = sd.scriptSig ∧
    (SignStep ext prov cre sc sd).2.2.2.redeem_script = sd.redeem_script := by
  rcases hs : ext.solver sc with ⟨wt, sols⟩
  cases wt with
  | TX_NONSTANDARD => simp only [SignStep, hs]; refine ⟨?_, ?_, ?_⟩ <;> trivial
  | TX_NULL_DATA => simp only [SignStep, hs]; refine ⟨?_, ?_, ?_⟩ <;> trivial
  | TX_PUBKEY =>
    rcases hc : CreateSig ext cre sd prov (sols.headD []) sc with ⟨os, sd1⟩
    have hfr := createSig_frame ext cre sd prov (sols.headD []) sc
    rw [hc] at hfr
    cases os <;> simp only [SignStep, hs, hc] <;>
      exact ⟨hfr.1, hfr.2.1, hfr.2.2.1⟩
  | TX_PUBKEYHASH =>
    rcases hg : GetPubKey prov sd (sols.headD []) with ⟨op, sd1⟩
    have hgf := getPubKey_frame prov sd (sols.headD [])
    rw [hg] at hgf
    cases op with
    | none =>
      simp only [SignStep, hs, hg]
      exact ⟨hgf.1, hgf.2.1, hgf.2.2.1⟩
    | some pk =>
      rcases hc : CreateSig ext cre sd1 prov pk sc with ⟨os, sd2⟩
      have hfr := createSig_frame ext cre sd1 prov pk sc
      rw [hc] at hfr
      cases os <;> simp only [SignStep, hs, hg, hc] <;>
        exact ⟨hfr.1.trans hgf.1, hfr.2.1.trans hgf.2.1,
          hfr.2.2.1.trans hgf.2.2.1⟩
  | TX_SCRIPTHASH =>
    cases hg : GetCScript ext prov sd (sols.headD []) <;>
      simp only [SignStep, hs, hg] <;> refine ⟨?_, ?_, ?_⟩ <;> trivial
  | TX_MULTISIG =>
    rcases hms2 : msigStep ext cre prov sc
        ((sols.headD []).headD 0) ((sols.drop 1).dropLast) [[]] sd with ⟨rr, sd1⟩
    have hms3 := msigStep_frame ext cre prov sc ((sols.headD []).headD 0)
      ((sols.drop 1).dropLast) [[]] sd
    rw [hms2] at hms3
    simp only [SignStep, hs, hms2]
    exact ⟨hms3.1, hms3.2.1, hms3.2.2.1⟩

/-- The multisig phase of extraction can only touch `signatures`. -/
theorem msigPhase_frame (ext : Ext)
    (checkFn : valtype → valtype → CScript → Bool) (st : txnouttype)
    (sols : List valtype) (ns : CScript) (stack : List valtype)
    (d : SignatureData) :
    (msigPhase ext checkFn st sols ns stack d).complete = d.complete ∧
    (msigPhase ext checkFn st sols ns stack d).missing_pubkeys =
      d.missing_pubkeys ∧
    (msigPhase ext checkFn st sols ns stack d).missing_sigs = d.missing_sigs ∧
    (msigPhase ext checkFn st sols ns stack d).missing_redeem_script =
      d.missing_redeem_script ∧
    (msigPhase ext checkFn st sols ns stack d).scriptSig = d.scriptSig ∧
    (msigPhase ext checkFn st sols ns stack d).redeem_script =
      d.redeem_script := by
  unfold msigPhase
  by_cases h : st = txnouttype.TX_MULTISIG ∧ stack ≠ []
  · rw [if_pos h]; exact ⟨rfl, rfl, rfl, rfl, rfl, rfl⟩
  · rw [if_neg h]; exact ⟨rfl, rfl, rfl, rfl, rfl, rfl⟩

/-! Claim C3. -/

/-- C3: when the locking script resolves to `Pay2ScriptHash` and the redeem
script `r` is obtainable (from the provider or the `SignatureData`),
`ProduceSignature` persists `r` as `redeem_script`, runs `SignStep` exactly
once more against `r` (the produced items are that nested run's items with
the serialized redeem script appended as the final stack item), and the
overall resolution fails whenever the nested script itself resolves to
`Pay2ScriptHash` (nesting depth limit 1). -/
theorem c3_p2sh_nesting (ext : Ext) (prov : SigningProvider)
    (cre : BaseSignatureCreator) (fp : CScript) (s : SignatureData)
    (sols : List valtype) (r : CScript)
    (hc : s.complete = false)
    (hs : ext.solver fp = (txnouttype.TX_SCRIPTHASH, sols))
    (hred : GetCScript ext prov s (sols.headD []) = some r) :
    (ProduceItems ext prov cre fp s).2.1 =
      (SignStep ext prov cre r { s with redeem_script := r }).2.1 ++ [r] ∧
    (ProduceItems ext prov cre fp s).2.2 =
      (SignStep ext prov cre r { s with redeem_script := r }).2.2.2 ∧
    (ProduceSignature ext prov cre fp s).2.redeem_script = r ∧
    ((ext.solver r).1 = txnouttype.TX_SCRIPTHASH →
      (ProduceSignature ext prov cre fp s).1 = false ∧
      (ProduceSignature ext prov cre fp s).2.complete = false) := by
  have hstep : SignStep ext prov cre fp s =
      (true, [r], txnouttype.TX_SCRIPTHASH, s) := by
    simp only [SignStep, hs, hred]
  have hfr := signStep_frame ext prov cre r { s with redeem_script := r }
  refine ⟨?_, ?_, ?_, ?_⟩
  · simp [ProduceItems, hstep]
  · simp [ProduceItems, hstep]
  · have hfr2 := hfr.2.2
    rw [hc] at hfr2
    simp [ProduceSignature, hc, ProduceItems, hstep, hfr2]
  · intro hr2
    have hwt := signStep_whichType ext prov cre r { s with redeem_script := r }
    rw [hr2] at hwt
    rw [hc] at hwt
    simp [ProduceSignature, hc, ProduceItems, hstep, hwt]

/-- C3 (witness): the statement at the script-hash script `[2]` whose
redeem script `[3]` (held by the provider) is itself pay-to-script-hash:
the redeem script is persisted and the resolution fails. -/
theorem c3_p2sh_nesting_witness :
    ({} : SignatureData).complete = false ∧
    extSH.solver [2] = (txnouttype.TX_SCRIPTHASH, [[99]]) ∧
    GetCScript extSH provSH {} (([[99]] : List valtype).headD []) = some [3] ∧
    (ProduceSignature extSH provSH creFail [2] {}).2.redeem_script = [3] ∧
    (ProduceSignature extSH provSH creFail [2] {}).1 = false :=
  ⟨rfl, by decide, by decide,
    (c3_p2sh_nesting extSH provSH creFail [2] {} [[99]] [3] rfl (by decide)
      (by decide)).2.2.1,
    ((c3_p2sh_nesting extSH provSH creFail [2] {} [[99]] [3] rfl (by decide)
      (by decide)).2.2.2 (by decide)).1⟩

/-! Claim C4. -/

/-- C4 (counterexample): merging two incomplete states that hold different
signatures for the same KeyId keeps only the first input's entry — the
second input's `(KeyId, (pubkey, signature))` entry is not in the result,
so the merged map does not contain every entry present in either input. -/
theorem c4_counterexample :
    sdA.complete = false ∧ sdB.complete = false ∧
    ([1], ([2], [4])) ∈ sdB.signatures ∧
    ([1], ([2], [4])) ∉ (MergeSignatureData sdA sdB).signatures := by
  decide

/-- C4 (amended): merging incomplete `b` into incomplete `a` keeps `a`'s
`redeem_script` unless it is empty (then `b`'s is taken), leaves the
`missing_*` fields of `a` unchanged, and produces a signatures map with an
entry for every KeyId present in either input, keeping `a`'s entry on a key
collision; if `b` is complete (and `a` is not), `a` is replaced by `b`. -/
theorem c4_merge (a b : SignatureData) (k : CKeyID) (ha : a.complete = false) :
    (b.complete = true → MergeSignatureData a b = b) ∧
    (b.complete = false →
      (MergeSignatureData a b).missing_sigs = a.missing_sigs ∧
      (MergeSignatureData a b).missing_pubkeys = a.missing_pubkeys ∧
      (MergeSignatureData a b).missing_redeem_script = a.missing_redeem_script ∧
      (MergeSignatureData a b).redeem_script =
        (if a.redeem_script = [] then b.redeem_script else a.redeem_script) ∧
      (∀ v, mapFind a.signatures k = some v →
        mapFind (MergeSignatureData a b).signatures k = some v) ∧
      (mapFind a.signatures k = none →
        mapFind (MergeSignatureData a b).signatures k = mapFind b.signatures k)) := by
  constructor
  · intro hb; simp [MergeSignatureData, ha, hb]
  · intro hb
    have hsig : (MergeSignatureData a b).signatures =
        b.signatures.foldl (fun m kv => mapEmplace m kv.1 kv.2) a.signatures := by
      simp only [MergeSignatureData, ha, hb, Bool.false_eq_true, if_false]
      by_cases hr : a.redeem_script = [] ∧ b.redeem_script ≠ []
      · rw [if_pos hr]
      · rw [if_neg hr]
    refine ⟨?_, ?_, ?_, ?_, ?_, ?_⟩
    · simp only [MergeSignatureData, ha, hb, Bool.false_eq_true, if_false]
      by_cases hr : a.redeem_script = [] ∧ b.redeem_script ≠ []
      · rw [if_pos hr]
      · rw [if_neg hr]
    · simp only [MergeSignatureData, ha, hb, Bool.false_eq_true, if_false]
      by_cases hr : a.redeem_script = [] ∧ b.redeem_script ≠ []
      · rw [if_pos hr]
      · rw [if_neg hr]
    · simp only [MergeSignatureData, ha, hb, Bool.false_eq_true, if_false]
      by_cases hr : a.redeem_script = [] ∧ b.redeem_script ≠ []
      · rw [if_pos hr]
      · rw [if_neg hr]
    · simp only [MergeSignatureData, ha, hb, Bool.false_eq_true, if_false]
      by_cases hr : a.redeem_script = [] ∧ b.redeem_script ≠ []
      · rw [if_pos hr]
        by_cases hra : a.redeem_script = []
        · simp [hra]
        · exact absurd hr.1 hra
      · rw [if_neg hr]
        by_cases hra : a.redeem_script = []
        · have hrb : b.redeem_script = [] := by
            by_contra hc
            exact hr ⟨hra, hc⟩
          simp [hra, hrb]
        · simp [hra]
    · intro v hv
      rw [hsig, mapFind_foldl_emplace, hv]
    · intro hnone
      rw [hsig, mapFind_foldl_emplace, hnone]

/-- C4 (witness): the amended statement at the two concrete states `sdA`
and `sdB` that collide on key `[1]`. -/
theorem c4_merge_witness :
    sdA.complete = false ∧ sdB.complete = false ∧
    (MergeSignatureData sdA sdB).missing_sigs = sdA.missing_sigs ∧
    mapFind (MergeSignatureData sdA sdB).signatures [1] = some ([2], [3]) :=
  ⟨rfl, rfl, ((c4_merge sdA sdB [1] rfl).2 rfl).1,
    ((c4_merge sdA sdB [1] rfl).2 rfl).2.2.2.2.1 ([2], [3]) (by decide)⟩

/-! Claim C6. -/

/-- A key found after an `emplace` was either the emplaced key or already
present. -/
theorem mapFind_emplace_isSome {α : Type} (m : List (CKeyID × α))
    (k k2 : CKeyID) (v : α)
    (h : (mapFind (mapEmplace m k v) k2).isSome = true) :
    k2 = k ∨ (mapFind m k2).isSome = true := by
  by_cases hp : (mapFind m k).isSome
  · rw [mapEmplace, if_pos hp] at h
    exact Or.inr h
  · rw [mapEmplace, if_neg hp, mapFind_append] at h
    cases hm : mapFind m k2 with
    | some w => exact Or.inr rfl
    | none =>
      rw [hm] at h
      by_cases hk : k = k2
      · exact Or.inl hk.symm
      · simp [mapFind, hk] at h

/-- Any state with no signatures and no missing KeyIds is consistent. -/
theorem sigInv_of_empty (cre : BaseSignatureCreator) (sc : CScript)
    (sd : SignatureData) (h1 : sd.signatures = [])
    (h2 : sd.missing_sigs = []) : SigInv cre sc sd := by
  constructor
  · intro k hk
    rw [h2] at hk
    exact absurd hk (List.not_mem_nil k)
  · intro k hk
    rw [h1] at hk
    simp [mapFind] at hk

/-- Consistency makes `signatures` and `missing_sigs` disjoint. -/
theorem sigInv_disjoint (cre : BaseSignatureCreator) (sc : CScript)
    (sd : SignatureData) (h : SigInv cre sc sd) (k : CKeyID)
    (hk : k ∈ sd.missing_sigs) : mapFind sd.signatures k = none := by
  cases hf : mapFind sd.signatures k with
  | none => rfl
  | some v => exact absurd (h.1 k hk) (h.2 k (by rw [hf]; rfl))

/-- `CreateSig` preserves consistency with its own creator and script. -/
theorem createSig_inv (ext : Ext) (cre : BaseSignatureCreator)
    (sd : SignatureData) (prov : SigningProvider) (pk : valtype)
    (sc : CScript) (h : SigInv cre sc sd) :
    SigInv cre sc (CreateSig ext cre sd prov pk sc).2 := by
  rcases h1 : mapFind sd.signatures (ext.pubkeyID pk) with _ | pr
  · rcases h2 : prov.getKeyOrigin (ext.pubkeyID pk) with _ | info <;>
      rcases h3 : cre.createSig (ext.pubkeyID pk) sc with _ | sig <;>
        simp only [CreateSig, h1, h2, h3]
    · constructor
      · intro k hk
        rcases List.mem_append.mp hk with hk1 | hk2
        · exact h.1 k hk1
        · rw [List.mem_singleton.mp hk2]
          exact h3
      · intro k hk
        exact h.2 k hk
    · constructor
      · intro k hk
        exact h.1 k hk
      · intro k hk
        rcases mapFind_emplace_isSome sd.signatures (ext.pubkeyID pk) k
            (pk, sig) hk with hke | hks
        · rw [hke, h3]
          exact fun hcc => Option.noConfusion hcc
        · exact h.2 k hks
    · constructor
      · intro k hk
        rcases List.mem_append.mp hk with hk1 | hk2
        · exact h.1 k hk1
        · rw [List.mem_singleton.mp hk2]
          exact h3
      · intro k hk
        exact h.2 k hk
    · constructor
      · intro k hk
        exact h.1 k hk
      · intro k hk
        rcases mapFind_emplace_isSome sd.signatures (ext.pubkeyID pk) k
            (pk, sig) hk with hke | hks
        · rw [hke, h3]
          exact fun hcc => Option.noConfusion hcc
        · exact h.2 k hks
  · simp only [CreateSig, h1]
    exact h

/-- The multisig collection loop preserves consistency. -/
theorem msigStep_inv (ext : Ext) (cre : BaseSignatureCreator)
    (prov : SigningProvider) (sc : CScript) (r : Nat) :
    ∀ (pks ret : List valtype) (sd : SignatureData), SigInv cre sc sd →
      SigInv cre sc (msigStep ext cre prov sc r pks ret sd).2 := by
  intro pks
  induction pks with
  | nil => intro ret sd h; exact h
  | cons pk rest ih =>
    intro ret sd h
    rw [msigStep]
    by_cases hlt : ret.length < r + 1
    · rw [if_pos hlt]
      rcases hcs : CreateSig ext cre sd prov pk sc with ⟨os, sd1⟩
      have h2 := createSig_inv ext cre sd prov pk sc h
      rw [hcs] at h2
      cases os with
      | none => exact ih ret sd1 h2
      | some sig => exact ih (ret ++ [sig]) sd1 h2
    · rw [if_neg hlt]
      exact ih ret sd h

/-- `SignStep` run on script `sc` preserves consistency with `sc`. -/
theorem signStep_inv (ext : Ext) (prov : SigningProvider)
    (cre : BaseSignatureCreator) (sc : CScript) (sd : SignatureData)
    (h : SigInv cre sc sd) :
    SigInv cre sc (SignStep ext prov cre sc sd).2.2.2 := by
  rcases hs : ext.solver sc with ⟨wt, sols⟩
  cases wt with
  | TX_NONSTANDARD => simp only [SignStep, hs]; exact h
  | TX_NULL_DATA => simp only [SignStep, hs]; exact h
  | TX_PUBKEY =>
    rcases hc : CreateSig ext cre sd prov (sols.headD []) sc with ⟨os, sd1⟩
    have h2 := createSig_inv ext cre sd prov (sols.headD []) sc h
    rw [hc] at h2
    cases os <;> simp only [SignStep, hs, hc] <;> exact h2
  | TX_PUBKEYHASH =>
    rcases hg : GetPubKey prov sd (sols.headD []) with ⟨op, sd1⟩
    have hgf := getPubKey_frame prov sd (sols.headD [])
    rw [hg] at hgf
    have h1 : SigInv cre sc sd1 := by
      constructor
      · intro k hk
        refine h.1 k ?_
        rw [← hgf.2.2.2.2.2.1]
        exact hk
      · intro k hk
        refine h.2 k ?_
        rw [← hgf.2.2.2.1]
        exact hk
    cases op with
    | none =>
      simp only [SignStep, hs, hg]
      exact ⟨h1.1, h1.2⟩
    | some pk =>
      rcases hc : CreateSig ext cre sd1 prov pk sc with ⟨os, sd2⟩
      have h2 := createSig_inv ext cre sd1 prov pk sc h1
      rw [hc] at h2
      cases os <;> simp only [SignStep, hs, hg, hc] <;> exact h2
  | TX_SCRIPTHASH =>
    cases hg : GetCScript ext prov sd (sols.headD []) <;>
      simp only [SignStep, hs, hg]
    · exact ⟨h.1, h.2⟩
    · exact h
  | TX_MULTISIG =>
    rcases hms : msigStep ext cre prov sc ((sols.headD []).headD 0)
        ((sols.drop 1).dropLast) [[]] sd with ⟨rr, sd1⟩
    have h2 := msigStep_inv ext cre prov sc ((sols.headD []).headD 0)
      ((sols.drop 1).dropLast) [[]] sd h
    rw [hms] at h2
    simp only [SignStep, hs, hms]
    exact h2

/-- A `SignStep` whose script classifies as `Pay2ScriptHash` touches
neither `signatures` nor `missing_sigs`. -/
theorem signStep_scripthash_untouched (ext : Ext) (prov : SigningProvider)
    (cre : BaseSignatureCreator) (sc : CScript) (sd : SignatureData)
    (hsh : (ext.solver sc).1 = txnouttype.TX_SCRIPTHASH) :
    (SignStep ext prov cre sc sd).2.2.2.signatures = sd.signatures ∧
    (SignStep ext prov cre sc sd).2.2.2.missing_sigs = sd.missing_sigs := by
  rcases hs : ext.solver sc with ⟨wt, sols⟩
  rw [hs] at hsh
  dsimp only at hsh
  subst hsh
  cases hg : GetCScript ext prov sd (sols.headD []) <;>
    simp only [SignStep, hs, hg] <;> refine ⟨?_, ?_⟩ <;> trivial

/-- C6 (counterexample): the state reached from empty by a failed
`ProduceSignature` (recording KeyId `[5]` missing) followed by a second
`ProduceSignature` with a creator that can now sign has `[5]` both as a key
of `signatures` and as an element of `missing_sigs` — the missing list is
never cleared. -/
theorem c6_counterexample :
    Reachable ((ProduceSignature extPK provNone creOk [9]
        (ProduceSignature extPK provNone creFail [9]
          ({} : SignatureData)).2).2) ∧
    (mapFind ((ProduceSignature extPK provNone creOk [9]
        (ProduceSignature extPK provNone creFail [9]
          ({} : SignatureData)).2).2).signatures [5]).isSome = true ∧
    [5] ∈ ((ProduceSignature extPK provNone creOk [9]
        (ProduceSignature extPK provNone creFail [9]
          ({} : SignatureData)).2).2).missing_sigs := by
  refine ⟨Reachable.produce _ _ _ _ _
    (Reachable.produce _ _ _ _ _ Reachable.empty), ?_, ?_⟩ <;> decide

/-- C6 (amended): the disjointness invariant holds after a single
`ProduceSignature` call from the empty state (with one fixed provider and
creator): every KeyId recorded in `missing_sigs` is absent from the
`signatures` map.  It can be violated by longer call sequences that mix
providers/creators or merge foreign partial states, because `missing_sigs`
is never cleared. -/
theorem c6_missing_not_signed (ext : Ext) (prov : SigningProvider)
    (cre : BaseSignatureCreator) (fp : CScript) (k : CKeyID)
    (hk : k ∈ ((ProduceSignature ext prov cre fp
        ({} : SignatureData)).2).missing_sigs) :
    mapFind ((ProduceSignature ext prov cre fp
        ({} : SignatureData)).2).signatures k = none := by
  have hfin1 : ((ProduceSignature ext prov cre fp
      ({} : SignatureData)).2).missing_sigs =
      (ProduceItems ext prov cre fp {}).2.2.missing_sigs := by
    simp [ProduceSignature]
  have hfin2 : ((ProduceSignature ext prov cre fp
      ({} : SignatureData)).2).signatures =
      (ProduceItems ext prov cre fp {}).2.2.signatures := by
    simp [ProduceSignature]
  rw [hfin1] at hk
  rw [hfin2]
  rcases hstep : SignStep ext prov cre fp ({} : SignatureData)
    with ⟨solved, result, wt, sd⟩
  have hinv2 := signStep_inv ext prov cre fp {}
    (sigInv_of_empty cre fp {} rfl rfl)
  rw [hstep] at hinv2
  simp only [ProduceItems, hstep] at hk ⊢
  by_cases hcond : solved = true ∧ wt = txnouttype.TX_SCRIPTHASH
  · rw [if_pos hcond] at hk ⊢
    dsimp only at hk ⊢
    have hwt := signStep_whichType ext prov cre fp ({} : SignatureData)
    rw [hstep] at hwt
    dsimp only at hwt
    have hsh : (ext.solver fp).1 = txnouttype.TX_SCRIPTHASH := by
      rw [← hwt]
      exact hcond.2
    have hun := signStep_scripthash_untouched ext prov cre fp
      ({} : SignatureData) hsh
    rw [hstep] at hun
    dsimp only at hun
    have hinv3 : SigInv cre (result.headD [])
        { sd with redeem_script := result.headD [] } :=
      sigInv_of_empty cre (result.headD []) _ hun.1 hun.2
    have hinv4 := signStep_inv ext prov cre (result.headD [])
      { sd with redeem_script := result.headD [] } hinv3
    exact sigInv_disjoint cre (result.headD []) _ hinv4 k hk
  · rw [if_neg hcond] at hk ⊢
    exact sigInv_disjoint cre fp sd hinv2 k hk

/-- C6 (witness): the amended statement at a failed pay-to-pubkey signing
attempt, which records KeyId `[5]` missing and no signature. -/
theorem c6_missing_not_signed_witness :
    [5] ∈ ((ProduceSignature extPK provNone creFail [9]
        ({} : SignatureData)).2).missing_sigs ∧
    mapFind ((ProduceSignature extPK provNone creFail [9]
        ({} : SignatureData)).2).signatures [5] = none :=
  ⟨by decide, c6_missing_not_signed extPK provNone creFail [9] [5] (by decide)⟩

/-! Claim C9. -/

/-- `CreateSig` neither reads nor keeps the stored unlocking script. -/
theorem createSig_ssig (ext : Ext) (cre : BaseSignatureCreator)
    (sd : SignatureData) (prov : SigningProvider) (pk : valtype)
    (sc : CScript) (x : CScript) :
    CreateSig ext cre { sd with scriptSig := x } prov pk sc =
      ((CreateSig ext cre sd prov pk sc).1,
        { (CreateSig ext cre sd prov pk sc).2 with scriptSig := x }) := by
  rcases h1 : mapFind sd.signatures (ext.pubkeyID pk) with _ | pr <;>
    rcases h2 : prov.getKeyOrigin (ext.pubkeyID pk) with _ | info <;>
      rcases h3 : cre.createSig (ext.pubkeyID pk) sc with _ | sig <;>
        simp [CreateSig, h1, h2, h3]

/-- `GetPubKey` neither reads nor keeps the stored unlocking script. -/
theorem getPubKey_ssig (prov : SigningProvider) (sd : SignatureData)
    (a : CKeyID) (x : CScript) :
    GetPubKey prov { sd with scriptSig := x } a =
      ((GetPubKey prov sd a).1,
        { (GetPubKey prov sd a).2 with scriptSig := x }) := by
  rcases h1 : mapFind sd.signatures a with _ | pr <;>
    rcases h2 : mapFind sd.misc_pubkeys a with _ | pr2 <;>
      rcases h3 : prov.getPubKey a with _ | pk <;>
        rcases h4 : prov.getKeyOrigin a with _ | info <;>
          simp [GetPubKey, h1, h2, h3, h4]

/-- `GetCScript` does not read the stored unlocking script. -/
theorem getCScript_ssig (ext : Ext) (prov : SigningProvider)
    (sd : SignatureData) (h160 : List Byte) (x : CScript) :
    GetCScript ext prov { sd with scriptSig := x } h160 =
      GetCScript ext prov sd h160 := rfl

/-- The multisig collection loop neither reads nor keeps the stored
unlocking script. -/
theorem msigStep_ssig (ext : Ext) (cre : BaseSignatureCreator)
    (prov : SigningProvider) (sc : CScript) (r : Nat) :
    ∀ (pks ret : List valtype) (sd : SignatureData) (x : CScript),
      msigStep ext cre prov sc r pks ret { sd with scriptSig := x } =
        ((msigStep ext cre prov sc r pks ret sd).1,
          { (msigStep ext cre prov sc r pks ret sd).2 with scriptSig := x }) := by
  intro pks
  induction pks with
  | nil => intro ret sd x; rfl
  | cons pk rest ih =>
    intro ret sd x
    rw [msigStep, msigStep]
    by_cases hlt : ret.length < r + 1
    · rw [if_pos hlt, if_pos hlt, createSig_ssig]
      rcases hcs : CreateSig ext cre sd prov pk sc with ⟨os, sd1⟩
      cases os with
      | none =>
        dsimp only
        exact ih ret sd1 x
      | some sig =>
        dsimp only
        exact ih (ret ++ [sig]) sd1 x
    · rw [if_neg hlt, if_neg hlt]
      exact ih ret sd x

/-- `SignStep` neither reads nor keeps the stored unlocking script: its
result is independent of it, and the prior value survives unchanged. -/
theorem signStep_ssig (ext : Ext) (prov : SigningProvider)
    (cre : BaseSignatureCreator) (sc : CScript) (sd : SignatureData)
    (x : CScript) :
    SignStep ext prov cre sc { sd with scriptSig := x } =
      ((SignStep ext prov cre sc sd).1, (SignStep ext prov cre sc sd).2.1,
        (SignStep ext prov cre sc sd).2.2.1,
        { (SignStep ext prov cre sc sd).2.2.2 with scriptSig := x }) := by
  rcases hs : ext.solver sc with ⟨wt, sols⟩
  cases wt with
  | TX_NONSTANDARD => simp only [SignStep, hs]
  | TX_NULL_DATA => simp only [SignStep, hs]
  | TX_PUBKEY =>
    have hcs := createSig_ssig ext cre sd prov (sols.headD []) sc x
    rcases hc : CreateSig ext cre sd prov (sols.headD []) sc with ⟨os, sd1⟩
    rw [hc] at hcs
    cases os <;> simp only [SignStep, hs, hc, hcs]
  | TX_PUBKEYHASH =>
    have hgs := getPubKey_ssig prov sd (sols.headD []) x
    rcases hg : GetPubKey prov sd (sols.headD []) with ⟨op, sd1⟩
    rw [hg] at hgs
    cases op with
    | none => simp only [SignStep, hs, hg, hgs]
    | some pk =>
      have hcs := createSig_ssig ext cre sd1 prov pk sc x
      rcases hc : CreateSig ext cre sd1 prov pk sc with ⟨os, sd2⟩
      rw [hc] at hcs
      cases os <;> simp only [SignStep, hs, hg, hgs, hc, hcs]
  | TX_SCRIPTHASH =>
    cases hg : GetCScript ext prov sd (sols.headD []) <;>
      simp only [SignStep, hs, getCScript_ssig, hg]
  | TX_MULTISIG =>
    have hms := msigStep_ssig ext cre prov sc ((sols.headD []).headD 0)
      ((sols.drop 1).dropLast) [[]] sd x
    rcases hm : msigStep ext cre prov sc ((sols.headD []).headD 0)
        ((sols.drop 1).dropLast) [[]] sd with ⟨rr, sd1⟩
    rw [hm] at hms
    simp only [SignStep, hs, hm, hms]

/-- `ProduceItems` neither reads nor keeps the stored unlocking script. -/
theorem produceItems_ssig (ext : Ext) (prov : SigningProvider)
    (cre : BaseSignatureCreator) (fp : CScript) (sd : SignatureData)
    (x : CScript) :
    ProduceItems ext prov cre fp { sd with scriptSig := x } =
      ((ProduceItems ext prov cre fp sd).1,
        (ProduceItems ext prov cre fp sd).2.1,
        { (ProduceItems ext prov cre fp sd).2.2 with scriptSig := x }) := by
  have hss := signStep_ssig ext prov cre fp sd x
  rcases hstep : SignStep ext prov cre fp sd with ⟨solved, result, wt, sd1⟩
  rw [hstep] at hss
  simp only [ProduceItems, hstep, hss]
  by_cases hcond : solved = true ∧ wt = txnouttype.TX_SCRIPTHASH
  · rw [if_pos hcond, if_pos hcond]
    dsimp only
    have hss2 := signStep_ssig ext prov cre (result.headD [])
      { sd1 with redeem_script := result.headD [] } x
    rcases hstep2 : SignStep ext prov cre (result.headD [])
        { sd1 with redeem_script := result.headD [] } with ⟨s2, r2, wt2, sd2⟩
    rw [hstep2] at hss2
    simp only [hss2, hstep2]
  · rw [if_neg hcond, if_neg hcond]

/-- C9: on an incomplete input, the result of `ProduceSignature` does not
depend on the previously stored unlocking script at all — the field is
unconditionally overwritten with the `PushAll` serialization of the items
collected during this call, even when the call returns false. -/
theorem c9_scriptSig_overwritten (ext : Ext) (prov : SigningProvider)
    (cre : BaseSignatureCreator) (fp : CScript) (s : SignatureData)
    (x : CScript) (h : s.complete = false) :
    ProduceSignature ext prov cre fp { s with scriptSig := x } =
      ProduceSignature ext prov cre fp s ∧
    ∃ items, ((ProduceSignature ext prov cre fp s).2).scriptSig =
      PushAll items := by
  constructor
  · have hpi := produceItems_ssig ext prov cre fp s x
    rw [h] at hpi
    rcases hp : ProduceItems ext prov cre fp s with ⟨b, items, sd2⟩
    rw [hp] at hpi
    simp only [ProduceSignature, h, Bool.false_eq_true, if_false, hpi, hp]
  · refine ⟨(ProduceItems ext prov cre fp s).2.1, ?_⟩
    simp [ProduceSignature, h]

/-- C9 (witness): the statement at a concrete incomplete state with a
previously stored unlocking script. -/
theorem c9_scriptSig_overwritten_witness :
    ({ scriptSig := [42] } : SignatureData).complete = false ∧
    (ProduceSignature extPK provNone creFail [9]
        { ({ scriptSig := [42] } : SignatureData) with scriptSig := [1, 2] } =
      ProduceSignature extPK provNone creFail [9] { scriptSig := [42] } ∧
      ∃ items, ((ProduceSignature extPK provNone creFail [9]
          ({ scriptSig := [42] } : SignatureData)).2).scriptSig =
        PushAll items) :=
  ⟨rfl, c9_scriptSig_overwritten extPK provNone creFail [9]
    { scriptSig := [42] } [1, 2] rfl⟩

/-! Claim C10. -/

/-- C10: for any transaction, in-range input index and previous output, the
`SignatureData` recovered by `DataFromTransaction` has empty
`missing_pubkeys`, empty `missing_sigs` and an unset
`missing_redeem_script`: extraction never records missing-material detail,
even when the result is incomplete. -/
theorem c10_extraction_no_missing (ext : Ext) (tx : CMutableTransaction)
    (nIn : Nat) (txout : CTxOut) (h : nIn < tx.vin.length) :
    (DataFromTransaction ext tx nIn txout).missing_pubkeys = [] ∧
    (DataFromTransaction ext tx nIn txout).missing_sigs = [] ∧
    (DataFromTransaction ext tx nIn txout).missing_redeem_script = none := by
  unfold DataFromTransaction
  dsimp only
  split
  · exact ⟨rfl, rfl, rfl⟩
  · split <;> split <;>
      exact ⟨(msigPhase_frame _ _ _ _ _ _ _).2.1,
        (msigPhase_frame _ _ _ _ _ _ _).2.2.1,
        (msigPhase_frame _ _ _ _ _ _ _).2.2.2.1⟩

/-- C10 (witness): the statement at a concrete one-input transaction. -/
theorem c10_extraction_no_missing_witness :
    0 < txOne.vin.length ∧
    ((DataFromTransaction extPK txOne 0 {}).missing_pubkeys = [] ∧
      (DataFromTransaction extPK txOne 0 {}).missing_sigs = [] ∧
      (DataFromTransaction extPK txOne 0 {}).missing_redeem_script = none) :=
  ⟨by decide, c10_extraction_no_missing extPK txOne 0 {} (by decide)⟩

/-! Claim C7. -/

/-- Decomposing a `drop` that yields a cons cell. -/
theorem drop_cons_getD (pubkeys : List valtype) (i : Nat) (pk : valtype)
    (rest : List valtype) (h : pubkeys.drop i = pk :: rest) :
    pubkeys.getD i [] = pk ∧ pubkeys.drop (i + 1) = rest ∧
    i < pubkeys.length := by
  have hlt : i < pubkeys.length := by
    by_contra hc
    rw [List.drop_eq_nil_of_le (by omega)] at h
    exact List.noConfusion h
  refine ⟨?_, ?_, hlt⟩
  · have h0 : pubkeys.get? i = some pk := by
      rw [← Nat.add_zero i, ← List.get?_drop, h]
      rfl
    rw [List.getD_eq_get?, h0]
    rfl
  · have h1 : pubkeys.drop (i + 1) = (pubkeys.drop i).drop 1 := by
      rw [List.drop_drop, Nat.add_comm]
    rw [h1, h]
    rfl

/-- The inner matcher of extraction's multisig phase: on a match it returns
a strictly advanced cursor bounded by the pubkey count, and either leaves
the signature map unchanged (already-recorded signature) or appends exactly
the entry for the matched pubkey `pubkeys[c - 1]`. -/
theorem msigFindMatch_spec (ext : Ext)
    (checkFn : valtype → valtype → CScript → Bool) (ns : CScript)
    (sig : valtype) (pubkeys : List valtype) :
    ∀ (pks : List valtype) (i : Nat) (sigs : List (CKeyID × SigPair))
      (c : Nat) (s2 : List (CKeyID × SigPair)),
      pks = pubkeys.drop i →
      msigFindMatch ext checkFn ns sigs sig pks i = some (c, s2) →
      i < c ∧ c ≤ pubkeys.length ∧
      (s2 = sigs ∨
        (c - 1 < pubkeys.length ∧
          s2 = sigs ++ [(ext.pubkeyID (pubkeys.getD (c - 1) []),
            (pubkeys.getD (c - 1) [], sig))])) := by
  intro pks
  induction pks with
  | nil =>
    intro i sigs c s2 hd hm
    rw [msigFindMatch] at hm
    exact Option.noConfusion hm
  | cons pk rest ih =>
    intro i sigs c s2 hd hm
    obtain ⟨hget, hdrop, hlt⟩ := drop_cons_getD pubkeys i pk rest hd.symm
    rw [msigFindMatch] at hm
    by_cases h1 : (mapFind sigs (ext.pubkeyID pk)).isSome
    · rw [if_pos h1] at hm
      have hinj := Option.some.inj hm
      have hc : i + 1 = c := congrArg Prod.fst hinj
      have hsg : sigs = s2 := congrArg Prod.snd hinj
      exact ⟨by omega, by omega, Or.inl hsg.symm⟩
    · rw [if_neg h1] at hm
      by_cases h2 : checkFn sig pk ns
      · rw [if_pos h2] at hm
        have hinj := Option.some.inj hm
        have hc : i + 1 = c := congrArg Prod.fst hinj
        have hsg : mapEmplace sigs (ext.pubkeyID pk) (pk, sig) = s2 :=
          congrArg Prod.snd hinj
        rw [mapEmplace, if_neg h1] at hsg
        refine ⟨by omega, by omega, Or.inr ⟨by omega, ?_⟩⟩
        have hc1 : c - 1 = i := by omega
        rw [hc1, hget, ← hsg]
      · rw [if_neg h2] at hm
        have h3 := ih (i + 1) sigs c s2 hdrop.symm hm
        exact ⟨by omega, h3.2.1, h3.2.2⟩

/-- An ordered match list starting at a later cursor also starts at any
earlier one. -/
theorem orderedMatches_mono (g : valtype → CKeyID) (pks : List valtype) :
    ∀ (c : Nat) (nw : List (CKeyID × SigPair)),
      OrderedMatches g pks c nw → ∀ c2, c2 ≤ c → OrderedMatches g pks c2 nw := by
  intro c nw h
  induction h with
  | nil c => intro c2 _; exact OrderedMatches.nil c2
  | cons c j sig rest hcj hj hrest ih =>
    intro c2 hc2
    exact OrderedMatches.cons c2 j sig rest (Nat.le_trans hc2 hcj) hj hrest

/-- The outer matcher of extraction's multisig phase: the cursor never
moves backwards, and the signature map only grows by entries matched to
pubkeys at strictly increasing indices at or after the cursor. -/
theorem msigMatchLoop_spec (ext : Ext)
    (checkFn : valtype → valtype → CScript → Bool) (ns : CScript)
    (pubkeys : List valtype) :
    ∀ (stack : List valtype) (cursor : Nat) (sigs : List (CKeyID × SigPair)),
      cursor ≤ (msigMatchLoop ext checkFn ns pubkeys stack cursor sigs).1 ∧
      ∃ nw, (msigMatchLoop ext checkFn ns pubkeys stack cursor sigs).2 =
          sigs ++ nw ∧ OrderedMatches ext.pubkeyID pubkeys cursor nw := by
  intro stack
  induction stack with
  | nil =>
    intro cursor sigs
    exact ⟨Nat.le_refl _, [], (List.append_nil sigs).symm,
      OrderedMatches.nil cursor⟩
  | cons sig rest ih =>
    intro cursor sigs
    rw [msigMatchLoop]
    cases hf : msigFindMatch ext checkFn ns sigs sig (pubkeys.drop cursor)
        cursor with
    | none => exact ih cursor sigs
    | some pr =>
      obtain ⟨c, s2⟩ := pr
      dsimp only
      have hspec := msigFindMatch_spec ext checkFn ns sig pubkeys
        (pubkeys.drop cursor) cursor sigs c s2 rfl hf
      obtain ⟨hcur, nw2, heq, hord⟩ := ih c s2
      obtain ⟨hlt, hle, hcase⟩ := hspec
      cases hcase with
      | inl h0 =>
        subst h0
        exact ⟨by omega, nw2, heq,
          orderedMatches_mono ext.pubkeyID pubkeys c nw2 hord cursor (by omega)⟩
      | inr h1 =>
        obtain ⟨hj, hs2⟩ := h1
        subst hs2
        refine ⟨by omega,
          (ext.pubkeyID (pubkeys.getD (c - 1) []),
            (pubkeys.getD (c - 1) [], sig)) :: nw2, ?_, ?_⟩
        · rw [heq, List.append_assoc]
          rfl
        · have htail : OrderedMatches ext.pubkeyID pubkeys (c - 1 + 1) nw2 := by
            have hceq : c - 1 + 1 = c := by omega
            rw [hceq]
            exact hord
          exact OrderedMatches.cons cursor (c - 1) sig nw2 (by omega) hj htail

/-- C7: in extraction's multisig matching, every stack item is matched only
against pubkeys at or after a monotonically non-decreasing cursor, and each
match advances the cursor past the matched pubkey, so the recovered
`(KeyId, signature)` pairs are appended in the pubkeys' original relative
order (strictly increasing pubkey indices); and `DataFromTransaction`
returns an incomplete `SignatureData` instead of failing when full
verification does not succeed. -/
theorem c7_extraction_order (ext : Ext)
    (checkFn : valtype → valtype → CScript → Bool) (ns : CScript)
    (pubkeys stack : List valtype) (cursor : Nat)
    (sigs : List (CKeyID × SigPair)) (tx : CMutableTransaction) (nIn : Nat)
    (txout : CTxOut)
    (hverify : (ext.verifyTrace (tx.vin.getD nIn {}).scriptSig
        txout.scriptPubKey (ext.makeChecker tx nIn txout.nValue)).1 = false) :
    cursor ≤ (msigMatchLoop ext checkFn ns pubkeys stack cursor sigs).1 ∧
    (∃ nw, (msigMatchLoop ext checkFn ns pubkeys stack cursor sigs).2 =
        sigs ++ nw ∧ OrderedMatches ext.pubkeyID pubkeys cursor nw) ∧
    (DataFromTransaction ext tx nIn txout).complete = false := by
  obtain ⟨h1, h2⟩ := msigMatchLoop_spec ext checkFn ns pubkeys stack cursor sigs
  refine ⟨h1, h2, ?_⟩
  unfold DataFromTransaction
  dsimp only
  simp only [hverify]
  split
  · simp at *
  · split <;> split <;> exact (msigPhase_frame _ _ _ _ _ _ _).1

/-- C7 (witness): the statement at a concrete two-pubkey list, a one-item
stack, cursor 0, and a transaction whose verification fails. -/
theorem c7_extraction_order_witness :
    ((extPK.verifyTrace (txOne.vin.getD 0 {}).scriptSig
        ({} : CTxOut).scriptPubKey
        (extPK.makeChecker txOne 0 ({} : CTxOut).nValue)).1 = false) ∧
    (0 ≤ (msigMatchLoop extPK (fun _ _ _ => false) [] [[10], [11]]
        [[1]] 0 []).1 ∧
      (∃ nw, (msigMatchLoop extPK (fun _ _ _ => false) [] [[10], [11]]
          [[1]] 0 []).2 = [] ++ nw ∧
        OrderedMatches extPK.pubkeyID [[10], [11]] 0 nw) ∧
      (DataFromTransaction extPK txOne 0 {}).complete = false) :=
  ⟨by decide,
   c7_extraction_order extPK (fun _ _ _ => false) [] [[10], [11]] [[1]] 0 []
     txOne 0 {} (by decide)⟩


/-- C8: for a pay-to-pubkey-hash script whose key hash is absent from the
recorded signatures, the cached misc pubkeys and the provider, `SignStep`
fails and appends exactly that key hash to `missing_pubkeys` (starting from
an empty list, `missing_pubkeys` then contains exactly that hash). -/
theorem c8_unknown_keyhash (ext : Ext) (prov : SigningProvider)
    (cre : BaseSignatureCreator) (script : CScript) (s : SignatureData)
    (sols : List valtype)
    (hs : ext.solver script = (txnouttype.TX_PUBKEYHASH, sols))
    (h1 : mapFind s.signatures (sols.headD []) = none)
    (h2 : mapFind s.misc_pubkeys (sols.headD []) = none)
    (h3 : prov.getPubKey (sols.headD []) = none) :
    (SignStep ext prov cre script s).1 = false ∧
    (SignStep ext prov cre script s).2.2.2.missing_pubkeys =
      s.missing_pubkeys ++ [sols.headD []] ∧
    (s.missing_pubkeys = [] →
      (SignStep ext prov cre script s).2.2.2.missing_pubkeys = [sols.headD []]) := by
  have hget : GetPubKey prov s (sols.headD []) = (none, s) := by
    unfold GetPubKey
    rw [h1, h2, h3]
  rw [SignStep, hs]
  simp only [hget]
  refine ⟨trivial, trivial, fun h0 => ?_⟩
  simp [h0]

/-- C8 (witness): the statement at the pay-to-pubkey-hash script `[4]` with
key hash `[6]`, an empty state and an empty provider. -/
theorem c8_unknown_keyhash_witness :
    extPKH.solver [4] = (txnouttype.TX_PUBKEYHASH, [[6]]) ∧
    ((SignStep extPKH provNone creFail [4] ({} : SignatureData)).1 = false ∧
      (SignStep extPKH provNone creFail [4] ({} : SignatureData)).2.2.2.missing_pubkeys =
        ({} : SignatureData).missing_pubkeys ++ [([[6]] : List valtype).headD []] ∧
      (({} : SignatureData).missing_pubkeys = [] →
        (SignStep extPKH provNone creFail [4] ({} : SignatureData)).2.2.2.missing_pubkeys =
          [([[6]] : List valtype).headD []])) :=
  ⟨by decide,
   c8_unknown_keyhash extPKH provNone creFail [4] {} [[6]]
     (by decide) (by decide) (by decide) (by decide)⟩

end Sign
